import Mathlib

/-!
Verification of the pachislot game simulator (`src/pachislo.ts`).

Shallow embedding conventions:
* JS `number` fields that hold ball counts / streak counters are modelled as `Int`
  (the code only ever adds or subtracts integers to them); probabilities and the
  values returned by `Math.random()` are modelled as `ℚ`.
* A call to `Math.random()` is modelled by an explicit parameter carrying the
  drawn value; a loop of calls by a stream `ℕ → ℚ`.  A genuine `Math.random()`
  result lies in `[0, 1)`, captured by the predicate `ValidRand`.
* A method that can `throw` is modelled as returning `Except GameError _`
  (pure state-machine layer) or a `StepOut` record with an `err` field
  (the mutable `Game` orchestrator layer, where mutations performed before a
  throw persist, as they do on a JS object).
-/

/-- Reel symbols are plain numbers in the source (`type SlotSymbol = number`). -/
abbrev SlotSymbol := Int

instance instDecidableEqExcept {ε α : Type} [DecidableEq ε] [DecidableEq α] :
    DecidableEq (Except ε α) := fun a b =>
  match a, b with
  | .ok x, .ok y => decidable_of_iff (x = y) (by simp)
  | .error e, .error f => decidable_of_iff (e = f) (by simp)
  | .ok _, .error _ => isFalse (by simp)
  | .error _, .ok _ => isFalse (by simp)

/-- All error values thrown by the core; each constructor corresponds to one
`throw` site in `src/pachislo.ts`. -/
inductive GameError where
  | configError (errors : List String)
  | uninitializedError
  | alreadyStartedError
  | incrementUninitialized
  | triggerRushUninitialized
  | probabilityError
  | spinningError
  | unknownCommand (s : String)
deriving DecidableEq, Repr

/-- Model of `BallsConfig` (src/pachislo.ts lines 17-31). -/
structure BallsConfig where
  initBalls : Int
  incrementalBalls : Int
  incrementalRush : Int
deriving DecidableEq, Repr

/-- Error list built by `BallsConfig.validate` (lines 24-31): the only check is
`initBalls < 1`. -/
def BallsConfig.validateErrors (c : BallsConfig) : List String :=
  if c.initBalls < 1 then ["initial balls must be greater than 0"] else []

/-- Model of `BallsConfig.validate`: throws `ConfigError(errors)` iff the list is non-empty. -/
def BallsConfig.validate (c : BallsConfig) : Except GameError Unit :=
  if c.validateErrors.length > 0 then .error (.configError c.validateErrors) else .ok ()

/-- Model of `SlotProbability` (lines 33-53). -/
structure SlotProbability where
  win : ℚ
  fakeWin : ℚ
  fakeLose : ℚ
deriving DecidableEq, Repr

/-- Error list built by `SlotProbability.validate` (lines 40-52). -/
def SlotProbability.validateErrors (p : SlotProbability) : List String :=
  (if p.win < 0 ∨ p.win > 1 then ["win probability must be between 0.0 and 1.0"] else []) ++
  (if p.fakeWin < 0 ∨ p.fakeWin > 1 then ["fake_win probability must be between 0.0 and 1.0"] else []) ++
  (if p.fakeLose < 0 ∨ p.fakeLose > 1 then ["fake_lose probability must be between 0.0 and 1.0"] else [])

/-- Model of `SlotProbability.validate`. -/
def SlotProbability.validate (p : SlotProbability) : Except GameError Unit :=
  if p.validateErrors.length > 0 then .error (.configError p.validateErrors) else .ok ()

/-- Model of `Probability` (lines 57-90); `rushContinueFn` is an arbitrary pure function
of the streak counter. -/
structure Probability where
  normal : SlotProbability
  rush : SlotProbability
  rushContinue : SlotProbability
  rushContinueFn : Int → ℚ

/-- Model of `Probability.validate` (lines 65-89) catches each component's `ConfigError`
and concatenates the collected error lists. -/
def Probability.validateErrors (p : Probability) : List String :=
  p.normal.validateErrors ++ p.rush.validateErrors ++ p.rushContinue.validateErrors

/-- Model of `Probability.validate`. -/
def Probability.validate (p : Probability) : Except GameError Unit :=
  if p.validateErrors.length > 0 then .error (.configError p.validateErrors) else .ok ()

/-- Model of `Config` (lines 92-116). -/
structure Config where
  balls : BallsConfig
  probability : Probability

/-- Model of `Config.validate` (lines 98-115): concatenation of the balls and probability
error lists. -/
def Config.validateErrors (c : Config) : List String :=
  c.balls.validateErrors ++ c.probability.validateErrors

/-- Model of `Config.validate`. -/
def Config.validate (c : Config) : Except GameError Unit :=
  if c.validateErrors.length > 0 then .error (.configError c.validateErrors) else .ok ()

/-- Model of `GameStateType` (lines 136-152): the tagged union
Uninitialized / Normal / Rush. -/
inductive GameStateType where
  | Uninitialized
  | Normal (balls : Int)
  | Rush (balls : Int) (rushBalls : Int) (n : Int)
deriving DecidableEq, Repr

/-- Model of `GameState.isUninitialized` (lines 167-169). -/
def GameState.isUninitialized : GameStateType → Bool
  | .Uninitialized => true
  | _ => false

/-- Model of `GameState.isRush` (lines 171-173). -/
def GameState.isRush : GameStateType → Bool
  | .Rush _ _ _ => true
  | _ => false

/-- Model of `GameState.launchBall` (lines 175-204): spend one ball; reaching exactly
zero exits the current mode.  The `=== 0` comparisons of the source become
equality tests on `Int`. -/
def GameState.launchBall : GameStateType → Except GameError GameStateType
  | .Uninitialized => .error .uninitializedError
  | .Normal balls =>
      let newBalls := balls - 1
      if newBalls = 0 then .ok .Uninitialized else .ok (.Normal newBalls)
  | .Rush balls rushBalls n =>
      let newRushBalls := rushBalls - 1
      if newRushBalls = 0 then .ok (.Normal balls)
      else .ok (.Rush balls newRushBalls n)

/-- Model of `GameState.init` (lines 206-212). -/
def GameState.init (state : GameStateType) (config : BallsConfig) :
    Except GameError GameStateType :=
  if GameState.isUninitialized state then .ok (.Normal config.initBalls)
  else .error .alreadyStartedError

/-- Model of `GameState.incrementBalls` (lines 214-244). -/
def GameState.incrementBalls (state : GameStateType) (config : BallsConfig) :
    Except GameError GameStateType :=
  match state with
  | .Uninitialized => .error .incrementUninitialized
  | .Normal balls => .ok (.Normal (balls + config.incrementalBalls))
  | .Rush balls rushBalls n =>
      .ok (.Rush (balls + config.incrementalBalls) rushBalls n)

/-- Model of `GameState.triggerRush` (lines 246-277). -/
def GameState.triggerRush (state : GameStateType) (config : BallsConfig) :
    Except GameError GameStateType :=
  match state with
  | .Uninitialized => .error .triggerRushUninitialized
  | .Normal balls =>
      .ok (.Rush (balls + config.incrementalBalls) config.incrementalRush 1)
  | .Rush balls rushBalls n =>
      .ok (.Rush (balls + config.incrementalBalls)
        (rushBalls + config.incrementalRush) (n + 1))

/-- States reachable from `Uninitialized` by successful applications of the four
state-machine operations, all under one fixed config (claim C1's setting). -/
inductive Reachable (cfg : Config) : GameStateType → Prop where
  | start : Reachable cfg .Uninitialized
  | init {s s' : GameStateType} : Reachable cfg s →
      GameState.init s cfg.balls = .ok s' → Reachable cfg s'
  | launchBall {s s' : GameStateType} : Reachable cfg s →
      GameState.launchBall s = .ok s' → Reachable cfg s'
  | incrementBalls {s s' : GameStateType} : Reachable cfg s →
      GameState.incrementBalls s cfg.balls = .ok s' → Reachable cfg s'
  | triggerRush {s s' : GameStateType} : Reachable cfg s →
      GameState.triggerRush s cfg.balls = .ok s' → Reachable cfg s'

/-- The non-negativity property claimed for every reachable state (C1):
`balls ≥ 0` in Normal and Rush, `rushBalls ≥ 0` and `n ≥ 1` in Rush. -/
def StateNonNeg : GameStateType → Prop
  | .Uninitialized => True
  | .Normal balls => 0 ≤ balls
  | .Rush balls rushBalls n => 0 ≤ balls ∧ 0 ≤ rushBalls ∧ 1 ≤ n

/-- Strengthened induction invariant used to prove the amended C1. -/
def StrongInv : GameStateType → Prop
  | .Uninitialized => True
  | .Normal balls => 1 ≤ balls
  | .Rush balls rushBalls n => 1 ≤ balls ∧ 1 ≤ rushBalls ∧ 1 ≤ n

/-- A probability bundle whose three slot probabilities pass validation. -/
def probabilityExample : Probability :=
  ⟨⟨1/2, 1/2, 1/2⟩, ⟨1/2, 1/2, 1/2⟩, ⟨1/2, 1/2, 1/2⟩, fun _ => 1⟩

/-- A config accepted by `Config.validate` whose `incrementalBalls` is negative:
validation never inspects `incrementalBalls` (lines 24-31). -/
def badConfig : Config := ⟨⟨1, -5, 300⟩, probabilityExample⟩

/-- Model of `enum Win` (lines 291-294). -/
inductive Win where
  | Default
  | FakeWin
deriving DecidableEq, Repr

/-- Model of `enum Lose` (lines 296-299). -/
inductive Lose where
  | Default
  | FakeLose
deriving DecidableEq, Repr

/-- Model of `LotteryResultType` (lines 301-311). -/
inductive LotteryResultType where
  | Win (winType : Win)
  | Lose (loseType : Lose)
deriving DecidableEq, Repr

/-- Model of `LotteryResult.isWin` (lines 322-324). -/
def LotteryResult.isWin : LotteryResultType → Bool
  | .Win _ => true
  | .Lose _ => false

/-- Model of `Lottery.lottery` (lines 339-351).  `r1` is the `Math.random()` drawn for
the win test and `r2` the one drawn inside the taken branch (the source calls
`Math.random()` afresh in each branch; both branches read one value, so a
single parameter models it). -/
def Lottery.lottery (slotProbability : SlotProbability) (r1 r2 : ℚ) :
    LotteryResultType :=
  if r1 < slotProbability.win then
    if r2 < slotProbability.fakeWin then .Win .FakeWin else .Win .Default
  else
    if r2 < slotProbability.fakeLose then .Lose .FakeLose else .Lose .Default

/-- Model of `Lottery.lotteryNormal` (lines 353-355). -/
def Lottery.lotteryNormal (probability : Probability) (r1 r2 : ℚ) :
    LotteryResultType :=
  Lottery.lottery probability.normal r1 r2

/-- Model of `Lottery.lotteryRush` (lines 357-359). -/
def Lottery.lotteryRush (probability : Probability) (r1 r2 : ℚ) :
    LotteryResultType :=
  Lottery.lottery probability.rush r1 r2

/-- Model of `Lottery.lotteryRushContinue` (lines 361-377): scale the base
rush-continuation win probability by `rushContinueFn n`, throw
`ProbabilityError` when the product exceeds 1, otherwise draw against the
adjusted probability with the original fakeWin/fakeLose. -/
def Lottery.lotteryRushContinue (probability : Probability) (n : Int)
    (r1 r2 : ℚ) : Except GameError LotteryResultType :=
  let adjustedWin := probability.rushContinue.win * probability.rushContinueFn n
  if adjustedWin > 1 then .error .probabilityError
  else .ok (Lottery.lottery
    ⟨adjustedWin, probability.rushContinue.fakeWin, probability.rushContinue.fakeLose⟩
    r1 r2)

/-- A value actually producible by `Math.random()`: a member of `[0, 1)`. -/
def ValidRand (r : ℚ) : Prop := 0 ≤ r ∧ r < 1

/-- Model of `Math.floor(r * k)` for a random draw `r` and a size `k`, taken back to `ℕ`
for list indexing (nonnegative whenever `0 ≤ r`). -/
def randIndex (r : ℚ) (k : ℕ) : ℕ := (Int.floor (r * (k : ℚ))).toNat

/-- The body of one iteration of `shuffleArray` (lines 384-389): swap the
entries at positions `i` and `j`; out-of-range indices leave the list intact
(they never occur in the source's loop). -/
def listSwap {α : Type} (l : List α) (i j : ℕ) : List α :=
  match l[i]?, l[j]? with
  | some x, some y => (l.set i y).set j x
  | _, _ => l

/-- The loop of `shuffleArray`: `i` runs from `length - 1` down to `1`, swapping
position `i` with position `Math.floor(Math.random() * (i + 1))`; `rs i` is the
value drawn at loop counter `i`. -/
def shuffleGo {α : Type} (rs : ℕ → ℚ) : List α → ℕ → List α
  | l, 0 => l
  | l, i + 1 =>
      shuffleGo rs (listSwap l (i + 1) (randIndex (rs (i + 1)) (i + 2))) i

/-- Model of `shuffleArray` (lines 384-389): in-place Fisher-Yates shuffle. -/
def shuffleArray {α : Type} (rs : ℕ → ℚ) (l : List α) : List α :=
  shuffleGo rs l (l.length - 1)

/-- Model of `SlotOutput` (line 393): primary reel plus the optional bonus reel. -/
abbrev SlotOutput := List SlotSymbol × Option (List SlotSymbol)

/-- Model of `SlotProducer.produceWin` (lines 405-409): pick one symbol at random, fill
the whole reel with it. -/
def SlotProducer.produceWin (length : ℕ) (choices : List SlotSymbol) (r : ℚ) :
    List SlotSymbol :=
  List.replicate length (choices.getD (randIndex r choices.length) 0)

/-- Model of `SlotProducer.produceLose` (lines 411-439).  The source's sequential
`Math.random()` calls are modelled by separate sources: `shufR` feeds the
initial shuffle, `rPart` picks the partition point, `rCnt` splits the reel
length, `rs1`/`rs2` drive the two sampling loops, `finR` feeds the final
shuffle.  Out-of-range `getD` accesses (never reached for valid draws) yield
the default symbol 0. -/
def SlotProducer.produceLose (length : ℕ) (choices : List SlotSymbol)
    (shufR : ℕ → ℚ) (rPart rCnt : ℚ) (rs1 rs2 : ℕ → ℚ) (finR : ℕ → ℚ) :
    List SlotSymbol :=
  let refChoices := shuffleArray shufR choices
  let partition := randIndex rPart (refChoices.length - 1) + 1
  let choices1 := refChoices.take partition
  let choices2 := refChoices.drop partition
  let cnt1 := randIndex rCnt (length - 1) + 1
  let cnt2 := length - cnt1
  let result1 := (List.range cnt1).map
    (fun i => choices1.getD (randIndex (rs1 i) choices1.length) 0)
  let result2 := (List.range cnt2).map
    (fun i => choices2.getD (randIndex (rs2 i) choices2.length) 0)
  shuffleArray finR (result1 ++ result2)

/-- Model of `SlotProducer.produceFakeLose` (lines 441-459): a 3-symbol near miss
`[choices[i], choices[i ± 1 mod size], choices[i]]`.  Both `%` operands are
nonnegative in the source, so the JS remainder coincides with `Int.emod`. -/
def SlotProducer.produceFakeLose (choices : List SlotSymbol) (r1 r2 : ℚ) :
    List SlotSymbol :=
  let choiceIndex := randIndex r1 choices.length
  let shifted := (((choiceIndex : Int) + (if r2 < 1/2 then -1 else 1) +
      (choices.length : Int)) % (choices.length : Int)).toNat
  [choices.getD choiceIndex 0, choices.getD shifted 0, choices.getD choiceIndex 0]

/-- Model of `SlotProducer.produce` (lines 461-502): dispatch on the lottery result.
`rs` carves out independent random sources for the inner producers. -/
def SlotProducer.produce (length : ℕ) (choices : List SlotSymbol) (rs : ℕ → ℚ) :
    LotteryResultType → SlotOutput
  | .Win .Default => (SlotProducer.produceWin length choices (rs 0), none)
  | .Win .FakeWin =>
      (SlotProducer.produceFakeLose choices (rs 0) (rs 1),
       some (SlotProducer.produceWin length choices (rs 2)))
  | .Lose .Default =>
      (SlotProducer.produceLose length choices (fun i => rs (6 * i)) (rs 1) (rs 5)
        (fun i => rs (6 * i + 2)) (fun i => rs (6 * i + 3)) (fun i => rs (6 * i + 4)),
       none)
  | .Lose .FakeLose => (SlotProducer.produceFakeLose choices (rs 0) (rs 1), none)

/-- The fixed symbol catalog of the `Game`'s slot producer (lines 692-695). -/
def slotChoicesDefault : List SlotSymbol := [1, 2, 3, 4, 5, 6, 7, 8, 9]

/-- Model of `Transition` (lines 280-285); `before` is nullable. -/
structure Transition where
  before : Option GameStateType
  after : GameStateType
deriving DecidableEq, Repr

/-- One notification delivered to the `UserOutput` collaborator (lines 587-597),
tagged by which abstract method was invoked. -/
inductive OutputEvent where
  | default (transition : Transition)
  | finishGame (state : GameStateType)
  | startGame (state : GameStateType)
  | lotteryNormal (result : LotteryResultType) (slot : SlotOutput)
  | lotteryRush (result : LotteryResultType) (slot : SlotOutput)
  | lotteryRushContinue (result : LotteryResultType) (slot : SlotOutput)
deriving DecidableEq, Repr

/-- The mutable fields of `Game` (lines 687-696).  The read-only collaborators
(config, lottery, slot producer, input, output) are passed to each operation as
parameters; notifications are returned as an `OutputEvent` list. -/
structure Game where
  beforeState : Option GameStateType
  state : GameStateType
  isSlotSpinning : Bool
deriving DecidableEq, Repr

/-- Result of executing one `Game` method: `err` is the exception that escaped
(if any); `game` holds the object's fields afterwards — mutations performed
before a throw persist, exactly as on a JS object; `events` are the output
notifications delivered before the method ended. -/
structure StepOut where
  err : Option GameError
  game : Game
  events : List OutputEvent
deriving DecidableEq, Repr

/-- The `Math.random()` values consumed by one `causeLottery` call: the two
draws of the main lottery, the two draws of the rush-continuation lottery, and
streams for the two slot renderings. -/
structure Draws where
  main1 : ℚ
  main2 : ℚ
  mainSlot : ℕ → ℚ
  cont1 : ℚ
  cont2 : ℚ
  contSlot : ℕ → ℚ

/-- Model of `Game.start` (lines 770-773). -/
def Game.start (cfg : BallsConfig) (g : Game) : StepOut :=
  match GameState.init g.state cfg with
  | .error e => ⟨some e, g, []⟩
  | .ok s' => ⟨none, { g with state := s' }, [.startGame s']⟩

/-- Model of `Game.finish` (lines 775-782): notifies with the final state, then resets. -/
def Game.finish (g : Game) : StepOut :=
  if GameState.isUninitialized g.state then ⟨some .uninitializedError, g, []⟩
  else ⟨none, { g with state := .Uninitialized }, [.finishGame g.state]⟩

/-- Model of `Game.launchBall` (lines 784-795): blocked while the slot is spinning,
otherwise the pure state-machine transition. -/
def Game.launchBall (g : Game) : StepOut :=
  if g.isSlotSpinning then ⟨some .spinningError, g, []⟩
  else
    match GameState.launchBall g.state with
    | .error e => ⟨some e, g, []⟩
    | .ok s' => ⟨none, { g with state := s' }, []⟩

/-- Model of `Game.causeLottery` (lines 797-842).  Sets the spinning flag, draws the
normal- or rush-mode lottery and renders it; on a win from a non-Rush state
applies `triggerRush` (whose `Uninitialized` failure escapes uncaught); on a
win in Rush runs the continuation draw inside try/catch: a `ProbabilityError`
is caught and warned about, leaving the state untouched, otherwise the
continuation result decides `triggerRush` versus `incrementBalls` (neither can
throw from a Rush state, but a thrown error would be caught). -/
def Game.causeLottery (cfg : BallsConfig) (prob : Probability) (d : Draws)
    (g : Game) : StepOut :=
  let g1 : Game := { g with isSlotSpinning := true }
  let result := if GameState.isRush g1.state then Lottery.lotteryRush prob d.main1 d.main2
                else Lottery.lotteryNormal prob d.main1 d.main2
  let slotResult := SlotProducer.produce 3 slotChoicesDefault d.mainSlot result
  let ev0 := if GameState.isRush g1.state then OutputEvent.lotteryRush result slotResult
             else OutputEvent.lotteryNormal result slotResult
  if ¬ LotteryResult.isWin result then ⟨none, g1, [ev0]⟩
  else
    match g1.state with
    | .Rush b rb n =>
        match Lottery.lotteryRushContinue prob n d.cont1 d.cont2 with
        | .error _ => ⟨none, g1, [ev0]⟩
        | .ok continueResult =>
            let slotResult2 := SlotProducer.produce 3 slotChoicesDefault d.contSlot continueResult
            let ev1 := OutputEvent.lotteryRushContinue continueResult slotResult2
            if LotteryResult.isWin continueResult then
              match GameState.triggerRush (.Rush b rb n) cfg with
              | .error _ => ⟨none, g1, [ev0, ev1]⟩
              | .ok s' => ⟨none, { g1 with state := s' }, [ev0, ev1]⟩
            else
              match GameState.incrementBalls (.Rush b rb n) cfg with
              | .error _ => ⟨none, g1, [ev0, ev1]⟩
              | .ok s' => ⟨none, { g1 with state := s' }, [ev0, ev1]⟩
    | s =>
        match GameState.triggerRush s cfg with
        | .error e => ⟨some e, g1, [ev0]⟩
        | .ok s' => ⟨none, { g1 with state := s' }, [ev0]⟩

/-- The closed set of `GameCommand` implementations (lines 528-577). -/
inductive GameCommand where
  | launchBall
  | causeLottery
  | startGame
  | finishGameImpl
  | launchBallFlow (isLottery : Bool)
deriving DecidableEq, Repr

/-- Model of `CommandType` (lines 509-526): a `Control` wrapper, the `FinishGame` object
form, or a raw string (the `Command.FinishGame` constant is itself the string
"FinishGame"). -/
inductive CommandType where
  | control (command : GameCommand)
  | finishGameObj
  | str (s : String)
deriving DecidableEq, Repr

/-- Model of `StepResult` (line 685): the strings "continue" and "break". -/
inductive StepResult where
  | continueStep
  | breakStep
deriving DecidableEq, Repr

/-- Model of `GameCommand.execute` (lines 532-577): each command calls the matching
`Game` method; `LaunchBallFlow` launches a ball and, when its stored draw said
so, also causes a lottery — unless the launch threw. -/
def GameCommand.execute (cfg : BallsConfig) (prob : Probability) (d : Draws) :
    GameCommand → Game → StepOut
  | .launchBall, g => Game.launchBall g
  | .causeLottery, g => Game.causeLottery cfg prob d g
  | .startGame, g => Game.start cfg g
  | .finishGameImpl, g => Game.finish g
  | .launchBallFlow isLottery, g =>
      let r := Game.launchBall g
      match r.err with
      | some _ => r
      | none =>
          if isLottery then
            let r2 := Game.causeLottery cfg prob d r.game
            ⟨r2.err, r2.game, r.events ++ r2.events⟩
          else r

/-- The finish-sentinel test of `runStepWithCommand` (lines 716-724): the
`Command.FinishGame` string constant, the object form, or the literal string. -/
def isFinishSentinel : Option CommandType → Bool
  | some .finishGameObj => true
  | some (.str s) => s == "FinishGame"
  | _ => false

/-- The `!command` test (lines 726-728): `null` or the falsy empty string. -/
def isFalsyCommand : Option CommandType → Bool
  | none => true
  | some (.str s) => s == ""
  | _ => false

/-- Command normalization (lines 730-753): unwrap `Control`, map the four known
string mnemonics, fail on unknown strings. -/
def normalizeCommand : Option CommandType → Except GameError GameCommand
  | some (.control c) => .ok c
  | some (.str "LaunchBall") => .ok .launchBall
  | some (.str "CauseLottery") => .ok .causeLottery
  | some (.str "StartGame") => .ok .startGame
  | some (.str "FinishGame") => .ok .finishGameImpl
  | some (.str s) => .error (.unknownCommand s)
  | some .finishGameObj => .error (.unknownCommand "FinishGame")
  | none => .error (.unknownCommand "")

/-- Model of `Game.runStepWithCommand` (lines 713-760): record a copy of the state in
`beforeState`, handle the finish sentinel and absent commands, then normalize,
execute, and emit the `default(Transition(before, after))` notification — the
latter only when the command did not throw (a thrown error propagates past the
notification call). -/
def Game.runStepWithCommand (cfg : BallsConfig) (prob : Probability) (d : Draws)
    (g : Game) (command : Option CommandType) : StepOut × StepResult :=
  let g0 : Game := { g with beforeState := some g.state }
  if isFinishSentinel command then (⟨none, g0, []⟩, .breakStep)
  else if isFalsyCommand command then (⟨none, g0, []⟩, .continueStep)
  else
    match normalizeCommand command with
    | .error e => (⟨some e, g0, []⟩, .continueStep)
    | .ok c =>
        let r := GameCommand.execute cfg prob d c g0
        match r.err with
        | some e => (⟨some e, r.game, r.events⟩, .continueStep)
        | none =>
            (⟨none, r.game,
              r.events ++ [.default ⟨g0.beforeState, r.game.state⟩]⟩, .continueStep)

/-- Model of `Game.run` (lines 762-768) driven by a finite script: each entry supplies
the command pulled from the input collaborator and the random draws for that
step.  The loop stops on `breakStep` or when an exception escapes a step. -/
def Game.runSteps (cfg : BallsConfig) (prob : Probability) :
    Game → List (Option CommandType × Draws) → Game × List OutputEvent
  | g, [] => (g, [])
  | g, (command, d) :: rest =>
      let out := Game.runStepWithCommand cfg prob d g command
      match out.2 with
      | .breakStep => (out.1.game, out.1.events)
      | .continueStep =>
          match out.1.err with
          | some _ => (out.1.game, out.1.events)
          | none =>
              let tail := Game.runSteps cfg prob out.1.game rest
              (tail.1, out.1.events ++ tail.2)

/-- A probability bundle whose continuation function always returns 2, so the
adjusted continuation win `4/5 * 2` exceeds 1 (the spec's "deliberately
misbehaving decay function"). -/
def probabilityOverflow : Probability :=
  ⟨⟨1/2, 1/2, 1/2⟩, ⟨1/2, 1/2, 1/2⟩, ⟨4/5, 1/4, 1/10⟩, fun _ => 2⟩

/-- A draw record in which every `Math.random()` call returns 0. -/
def drawsZero : Draws := ⟨0, 0, fun _ => 0, 0, 0, fun _ => 0⟩

theorem badConfig_validate_ok : Config.validate badConfig = .ok () := by
  norm_num [Config.validate, Config.validateErrors, BallsConfig.validateErrors,
    Probability.validateErrors, SlotProbability.validateErrors, badConfig,
    probabilityExample]

theorem badConfig_reaches_negative :
    Reachable badConfig (.Rush (-4) 300 1) := by
  have h1 : Reachable badConfig (.Normal 1) :=
    Reachable.init Reachable.start (by decide)
  exact Reachable.triggerRush h1 (by decide)

/-- Claim C1 (counterexample): it is NOT the case that every state reachable
under a config accepted by `Config.validate` has non-negative numeric fields.
`badConfig` passes validation (only `initBalls ≥ 1` is checked), yet
`Uninitialized → init → Normal 1 → triggerRush → Rush (-4) 300 1` reaches a
state with `balls = -4 < 0`. -/
theorem C1_nonneg_counterexample :
    ¬ (∀ cfg : Config, Config.validate cfg = .ok () →
        ∀ s, Reachable cfg s → StateNonNeg s) := by
  intro h
  have := h badConfig badConfig_validate_ok _ badConfig_reaches_negative
  simp only [StateNonNeg] at this
  omega

theorem strongInv_of_reachable (cfg : Config)
    (hInit : 1 ≤ cfg.balls.initBalls)
    (hIncB : 0 ≤ cfg.balls.incrementalBalls)
    (hIncR : 1 ≤ cfg.balls.incrementalRush) :
    ∀ s, Reachable cfg s → StrongInv s := by
  intro s hs
  induction hs with
  | start => trivial
  | init hr hstep ih =>
      rename_i s s'
      cases s with
      | Uninitialized =>
          simp only [GameState.init, GameState.isUninitialized, if_true] at hstep
          cases hstep
          exact hInit
      | Normal b => simp [GameState.init, GameState.isUninitialized] at hstep
      | Rush b rb n => simp [GameState.init, GameState.isUninitialized] at hstep
  | launchBall hr hstep ih =>
      rename_i s s'
      cases s with
      | Uninitialized => simp [GameState.launchBall] at hstep
      | Normal b =>
          simp only [GameState.launchBall] at hstep
          simp only [StrongInv] at ih
          split at hstep
          · cases hstep; trivial
          · cases hstep
            simp only [StrongInv]
            omega
      | Rush b rb n =>
          simp only [GameState.launchBall] at hstep
          simp only [StrongInv] at ih
          split at hstep
          · cases hstep
            simp only [StrongInv]
            omega
          · cases hstep
            simp only [StrongInv]
            omega
  | incrementBalls hr hstep ih =>
      rename_i s s'
      cases s with
      | Uninitialized => simp [GameState.incrementBalls] at hstep
      | Normal b =>
          simp only [GameState.incrementBalls] at hstep
          cases hstep
          simp only [StrongInv] at ih ⊢
          omega
      | Rush b rb n =>
          simp only [GameState.incrementBalls] at hstep
          cases hstep
          simp only [StrongInv] at ih ⊢
          omega
  | triggerRush hr hstep ih =>
      rename_i s s'
      cases s with
      | Uninitialized => simp [GameState.triggerRush] at hstep
      | Normal b =>
          simp only [GameState.triggerRush] at hstep
          cases hstep
          simp only [StrongInv] at ih ⊢
          omega
      | Rush b rb n =>
          simp only [GameState.triggerRush] at hstep
          cases hstep
          simp only [StrongInv] at ih ⊢
          omega

/-- Claim C1 (amended): under a config accepted by `Config.validate` that
additionally has `incrementalBalls ≥ 0` and `incrementalRush ≥ 1` (neither of
which validation enforces), every state reachable by `init`, `launchBall`,
`incrementBalls` and `triggerRush` has non-negative numeric fields:
`balls ≥ 0` in Normal and Rush, `rushBalls ≥ 0` and `n ≥ 1` in Rush. -/
theorem C1_nonneg_amended (cfg : Config)
    (hv : Config.validate cfg = .ok ())
    (hIncB : 0 ≤ cfg.balls.incrementalBalls)
    (hIncR : 1 ≤ cfg.balls.incrementalRush)
    (s : GameStateType) (hs : Reachable cfg s) : StateNonNeg s := by
  have hInit : 1 ≤ cfg.balls.initBalls := by
    by_contra hlt
    push_neg at hlt
    simp only [Config.validate, Config.validateErrors, BallsConfig.validateErrors,
      if_pos hlt] at hv
    rw [if_pos (by simp)] at hv
    exact Except.noConfusion hv
  have h := strongInv_of_reachable cfg hInit hIncB hIncR s hs
  cases s with
  | Uninitialized => trivial
  | Normal b => simp only [StrongInv] at h; simp only [StateNonNeg]; omega
  | Rush b rb n => simp only [StrongInv] at h; simp only [StateNonNeg]; omega

/-- Closed witness for the amended C1 at a concrete config and reachable state. -/
theorem C1_nonneg_amended_witness :
    StateNonNeg (.Normal 1000) := by
  have hcfg : Config.validate ⟨⟨1000, 15, 300⟩, probabilityExample⟩ = .ok () := by
    norm_num [Config.validate, Config.validateErrors, BallsConfig.validateErrors,
      Probability.validateErrors, SlotProbability.validateErrors, probabilityExample]
  exact C1_nonneg_amended ⟨⟨1000, 15, 300⟩, probabilityExample⟩ hcfg
    (by decide) (by decide) (.Normal 1000)
    (Reachable.init Reachable.start (by decide))

/-- Claim C2: the case analysis of `GameState.launchBall`.  From `Uninitialized`
it fails with `UninitializedError`; from `Normal b` it yields `Normal (b-1)`
when `b-1 > 0` and `Uninitialized` when `b-1 = 0`; from `Rush b rb n` it yields
`Rush b (rb-1) n` when `rb-1 > 0` and `Normal b` when `rb-1 = 0`. -/
theorem C2_launchBall_cases :
    (GameState.launchBall .Uninitialized = .error .uninitializedError) ∧
    (∀ b : Int, b - 1 > 0 →
      GameState.launchBall (.Normal b) = .ok (.Normal (b - 1))) ∧
    (∀ b : Int, b - 1 = 0 →
      GameState.launchBall (.Normal b) = .ok .Uninitialized) ∧
    (∀ b rb n : Int, rb - 1 > 0 →
      GameState.launchBall (.Rush b rb n) = .ok (.Rush b (rb - 1) n)) ∧
    (∀ b rb n : Int, rb - 1 = 0 →
      GameState.launchBall (.Rush b rb n) = .ok (.Normal b)) := by
  refine ⟨rfl, ?_, ?_, ?_, ?_⟩
  · intro b hb
    simp only [GameState.launchBall]
    rw [if_neg (by omega)]
  · intro b hb
    simp only [GameState.launchBall]
    rw [if_pos (by omega)]
  · intro b rb n hrb
    simp only [GameState.launchBall]
    rw [if_neg (by omega)]
  · intro b rb n hrb
    simp only [GameState.launchBall]
    rw [if_pos (by omega)]

/-- Closed witness for C2 at concrete states. -/
theorem C2_launchBall_cases_witness :
    GameState.launchBall (.Normal 5) = .ok (.Normal 4) ∧
    GameState.launchBall (.Normal 1) = .ok .Uninitialized ∧
    GameState.launchBall (.Rush 7 3 2) = .ok (.Rush 7 2 2) ∧
    GameState.launchBall (.Rush 7 1 2) = .ok (.Normal 7) :=
  ⟨C2_launchBall_cases.2.1 5 (by norm_num),
   C2_launchBall_cases.2.2.1 1 (by norm_num),
   C2_launchBall_cases.2.2.2.1 7 3 2 (by norm_num),
   C2_launchBall_cases.2.2.2.2 7 1 2 (by norm_num)⟩

/-- Claim C4: `lotteryRushContinue n` throws `ProbabilityError` iff
`rushContinue.win * rushContinueFn n > 1`, and otherwise performs the draw
against a `SlotProbability` whose `win` is exactly that product and whose
`fakeWin`/`fakeLose` are the original rush-continuation values. -/
theorem C4_lotteryRushContinue_spec (probability : Probability) (n : Int)
    (r1 r2 : ℚ) :
    ((Lottery.lotteryRushContinue probability n r1 r2 = .error .probabilityError) ↔
      probability.rushContinue.win * probability.rushContinueFn n > 1) ∧
    (¬ probability.rushContinue.win * probability.rushContinueFn n > 1 →
      Lottery.lotteryRushContinue probability n r1 r2 =
        .ok (Lottery.lottery
          ⟨probability.rushContinue.win * probability.rushContinueFn n,
           probability.rushContinue.fakeWin, probability.rushContinue.fakeLose⟩
          r1 r2)) := by
  constructor
  · constructor
    · intro h
      by_contra hq
      simp only [Lottery.lotteryRushContinue, if_neg hq] at h
      exact Except.noConfusion h
    · intro h
      simp only [Lottery.lotteryRushContinue, if_pos h]
  · intro h
    simp only [Lottery.lotteryRushContinue, if_neg h]

/-- Closed witness for C4: with a constant continuation function 2 and base win
4/5 the product is 8/5 > 1 and the call fails with `ProbabilityError`; with the
benign `probabilityExample` it performs the adjusted draw. -/
theorem C4_lotteryRushContinue_spec_witness :
    (Lottery.lotteryRushContinue
      ⟨⟨1/2, 1/2, 1/2⟩, ⟨1/2, 1/2, 1/2⟩, ⟨4/5, 1/4, 1/10⟩, fun _ => 2⟩ 1 0 0 =
      .error .probabilityError) ∧
    (Lottery.lotteryRushContinue probabilityExample 1 0 0 =
      .ok (Lottery.lottery ⟨1/2 * 1, 1/2, 1/2⟩ 0 0)) :=
  ⟨(C4_lotteryRushContinue_spec
      ⟨⟨1/2, 1/2, 1/2⟩, ⟨1/2, 1/2, 1/2⟩, ⟨4/5, 1/4, 1/10⟩, fun _ => 2⟩ 1 0 0).1.mpr
      (by norm_num),
   (C4_lotteryRushContinue_spec probabilityExample 1 0 0).2
      (by norm_num [probabilityExample])⟩

/-- Claim C3: from a `Normal b` state under a validated config, when the
normal-mode draw of `causeLottery` is a Win (either sub-kind), the resulting
game state is `Rush (b + incrementalBalls) incrementalRush 1`: entering rush
sets the streak to 1 and the rush pool to `incrementalRush`. -/
theorem C3_causeLottery_normal_win (c : Config) (hv : Config.validate c = .ok ())
    (g : Game) (b : Int) (hg : g.state = .Normal b) (d : Draws)
    (hwin : LotteryResult.isWin (Lottery.lotteryNormal c.probability d.main1 d.main2) = true) :
    (Game.causeLottery c.balls c.probability d g).game.state =
      .Rush (b + c.balls.incrementalBalls) c.balls.incrementalRush 1 := by
  simp [Game.causeLottery, hg, GameState.isRush, hwin, GameState.triggerRush]

/-- Closed witness for C3 at a concrete game and draws. -/
theorem C3_causeLottery_normal_win_witness :
    (Game.causeLottery ⟨1000, 15, 300⟩ probabilityExample drawsZero
      ⟨none, .Normal 100, false⟩).game.state = .Rush 115 300 1 := by
  have hv : Config.validate ⟨⟨1000, 15, 300⟩, probabilityExample⟩ = .ok () := by
    norm_num [Config.validate, Config.validateErrors, BallsConfig.validateErrors,
      Probability.validateErrors, SlotProbability.validateErrors, probabilityExample]
  have hwin : LotteryResult.isWin
      (Lottery.lotteryNormal probabilityExample drawsZero.main1 drawsZero.main2) = true := by
    norm_num [Lottery.lotteryNormal, Lottery.lottery, probabilityExample, drawsZero,
      LotteryResult.isWin]
  have h := C3_causeLottery_normal_win ⟨⟨1000, 15, 300⟩, probabilityExample⟩ hv
    ⟨none, .Normal 100, false⟩ 100 rfl drawsZero hwin
  simpa using h

/-- Claim C5: in a Rush state whose rush-mode draw is a Win, when the
rush-continuation probability overflows (`win * rushContinueFn n > 1`, so
`lotteryRushContinue` throws `ProbabilityError`), `causeLottery` catches the
error (none escapes) and the game state is left exactly as it was. -/
theorem C5_causeLottery_probError_caught (cfg : BallsConfig) (prob : Probability)
    (g : Game) (b rb n : Int) (hg : g.state = .Rush b rb n) (d : Draws)
    (hwin : LotteryResult.isWin (Lottery.lotteryRush prob d.main1 d.main2) = true)
    (hover : prob.rushContinue.win * prob.rushContinueFn n > 1) :
    (Game.causeLottery cfg prob d g).err = none ∧
    (Game.causeLottery cfg prob d g).game.state = g.state := by
  have herr : Lottery.lotteryRushContinue prob n d.cont1 d.cont2 =
      .error .probabilityError := by
    simp only [Lottery.lotteryRushContinue, if_pos hover]
  constructor <;>
    simp [Game.causeLottery, hg, GameState.isRush, hwin, herr]

/-- Closed witness for C5 at a concrete Rush game with the overflowing
continuation function. -/
theorem C5_causeLottery_probError_caught_witness :
    (Game.causeLottery ⟨1000, 15, 300⟩ probabilityOverflow drawsZero
      ⟨none, .Rush 10 5 1, false⟩).err = none ∧
    (Game.causeLottery ⟨1000, 15, 300⟩ probabilityOverflow drawsZero
      ⟨none, .Rush 10 5 1, false⟩).game.state = .Rush 10 5 1 := by
  have hwin : LotteryResult.isWin
      (Lottery.lotteryRush probabilityOverflow drawsZero.main1 drawsZero.main2) = true := by
    norm_num [Lottery.lotteryRush, Lottery.lottery, probabilityOverflow, drawsZero,
      LotteryResult.isWin]
  have hover : probabilityOverflow.rushContinue.win *
      probabilityOverflow.rushContinueFn 1 > 1 := by
    norm_num [probabilityOverflow]
  exact C5_causeLottery_probError_caught ⟨1000, 15, 300⟩ probabilityOverflow
    ⟨none, .Rush 10 5 1, false⟩ 10 5 1 rfl drawsZero hwin hover

/-- Claim C6: in state `Rush b rb n`, when the rush-mode draw is a Win and
`lotteryRushContinue n` returns a result without error: a winning continuation
yields `Rush (b + incrementalBalls) (rb + incrementalRush) (n + 1)`, a losing
one yields `Rush (b + incrementalBalls) rb n` — still tagged Rush, with
`rushBalls` and `n` unchanged. -/
theorem C6_causeLottery_rush_continue (cfg : BallsConfig) (prob : Probability)
    (g : Game) (b rb n : Int) (hg : g.state = .Rush b rb n) (d : Draws)
    (hwin : LotteryResult.isWin (Lottery.lotteryRush prob d.main1 d.main2) = true)
    (r : LotteryResultType)
    (hok : Lottery.lotteryRushContinue prob n d.cont1 d.cont2 = .ok r) :
    (LotteryResult.isWin r = true →
      (Game.causeLottery cfg prob d g).game.state =
        .Rush (b + cfg.incrementalBalls) (rb + cfg.incrementalRush) (n + 1)) ∧
    (LotteryResult.isWin r = false →
      (Game.causeLottery cfg prob d g).game.state =
        .Rush (b + cfg.incrementalBalls) rb n) := by
  constructor
  · intro hr
    simp [Game.causeLottery, hg, GameState.isRush, hwin, hok, hr,
      GameState.triggerRush]
  · intro hr
    simp [Game.causeLottery, hg, GameState.isRush, hwin, hok, hr,
      GameState.incrementBalls]

/-- Closed witness for C6: with `probabilityExample` and all-zero draws the
continuation draw is a Win, extending the streak. -/
theorem C6_causeLottery_rush_continue_witness :
    (Game.causeLottery ⟨1000, 15, 300⟩ probabilityExample drawsZero
      ⟨none, .Rush 10 5 1, false⟩).game.state = .Rush 25 305 2 := by
  have hwin : LotteryResult.isWin
      (Lottery.lotteryRush probabilityExample drawsZero.main1 drawsZero.main2) = true := by
    norm_num [Lottery.lotteryRush, Lottery.lottery, probabilityExample, drawsZero,
      LotteryResult.isWin]
  have hok : Lottery.lotteryRushContinue probabilityExample 1
      drawsZero.cont1 drawsZero.cont2 = .ok (.Win .FakeWin) := by
    norm_num [Lottery.lotteryRushContinue, Lottery.lottery, probabilityExample, drawsZero]
  have h := (C6_causeLottery_rush_continue ⟨1000, 15, 300⟩ probabilityExample
    ⟨none, .Rush 10 5 1, false⟩ 10 5 1 rfl drawsZero hwin (.Win .FakeWin) hok).1 rfl
  simpa using h

theorem causeLottery_spinning_true (cfg : BallsConfig) (prob : Probability)
    (d : Draws) (g : Game) :
    (Game.causeLottery cfg prob d g).game.isSlotSpinning = true := by
  unfold Game.causeLottery
  dsimp only
  repeat' split
  all_goals rfl

theorem launchBall_spinning_eq (g : Game) :
    (Game.launchBall g).game.isSlotSpinning = g.isSlotSpinning := by
  unfold Game.launchBall
  repeat' split
  all_goals rfl

theorem start_spinning_eq (cfg : BallsConfig) (g : Game) :
    (Game.start cfg g).game.isSlotSpinning = g.isSlotSpinning := by
  unfold Game.start
  repeat' split
  all_goals rfl

theorem finish_spinning_eq (g : Game) :
    (Game.finish g).game.isSlotSpinning = g.isSlotSpinning := by
  unfold Game.finish
  repeat' split
  all_goals rfl

theorem execute_spinning_true (cfg : BallsConfig) (prob : Probability)
    (d : Draws) (c : GameCommand) (g : Game) (hsp : g.isSlotSpinning = true) :
    (GameCommand.execute cfg prob d c g).game.isSlotSpinning = true := by
  cases c with
  | launchBall => rw [GameCommand.execute, launchBall_spinning_eq]; exact hsp
  | causeLottery => rw [GameCommand.execute]; exact causeLottery_spinning_true cfg prob d g
  | startGame => rw [GameCommand.execute, start_spinning_eq]; exact hsp
  | finishGameImpl => rw [GameCommand.execute, finish_spinning_eq]; exact hsp
  | launchBallFlow isLottery =>
      rw [GameCommand.execute]
      dsimp only
      repeat' split
      all_goals first
        | (rw [launchBall_spinning_eq]; exact hsp)
        | (dsimp only; exact causeLottery_spinning_true cfg prob d _)

/-- Claim C9: `causeLottery` sets the spinning flag and never resets it; none
of the core operations (`runStepWithCommand` — which is `runStep` applied to
the command the input supplied — `start`, `finish`, `launchBall`,
`causeLottery`) clears the flag once set; and while the flag is set,
`launchBall` throws the blocking error and leaves the game object unchanged. -/
theorem C9_spinning_guard :
    (∀ (cfg : BallsConfig) (prob : Probability) (d : Draws) (g : Game),
      (Game.causeLottery cfg prob d g).game.isSlotSpinning = true) ∧
    (∀ (cfg : BallsConfig) (prob : Probability) (d : Draws) (g : Game)
      (command : Option CommandType), g.isSlotSpinning = true →
      ((Game.runStepWithCommand cfg prob d g command).1.game.isSlotSpinning = true)) ∧
    (∀ (cfg : BallsConfig) (g : Game), g.isSlotSpinning = true →
      (Game.start cfg g).game.isSlotSpinning = true) ∧
    (∀ g : Game, g.isSlotSpinning = true →
      (Game.finish g).game.isSlotSpinning = true) ∧
    (∀ g : Game, g.isSlotSpinning = true →
      Game.launchBall g = ⟨some .spinningError, g, []⟩) := by
  refine ⟨causeLottery_spinning_true, ?_, ?_, ?_, ?_⟩
  · intro cfg prob d g command hsp
    unfold Game.runStepWithCommand
    dsimp only
    repeat' split
    all_goals first
      | exact hsp
      | (dsimp only; exact execute_spinning_true cfg prob d _ _ hsp)
  · intro cfg g hsp
    rw [start_spinning_eq]; exact hsp
  · intro g hsp
    rw [finish_spinning_eq]; exact hsp
  · intro g hsp
    unfold Game.launchBall
    rw [if_pos hsp]

/-- Closed witness for C9 at a spinning game. -/
theorem C9_spinning_guard_witness :
    (Game.causeLottery ⟨1000, 15, 300⟩ probabilityExample drawsZero
      ⟨none, .Normal 5, false⟩).game.isSlotSpinning = true ∧
    (Game.runStepWithCommand ⟨1000, 15, 300⟩ probabilityExample drawsZero
      ⟨none, .Normal 5, true⟩ (some (.control .startGame))).1.game.isSlotSpinning = true ∧
    Game.launchBall ⟨none, .Normal 5, true⟩ =
      ⟨some .spinningError, ⟨none, .Normal 5, true⟩, []⟩ :=
  ⟨C9_spinning_guard.1 ⟨1000, 15, 300⟩ probabilityExample drawsZero ⟨none, .Normal 5, false⟩,
   C9_spinning_guard.2.1 ⟨1000, 15, 300⟩ probabilityExample drawsZero
     ⟨none, .Normal 5, true⟩ (some (.control .startGame)) rfl,
   C9_spinning_guard.2.2.2.2 ⟨none, .Normal 5, true⟩ rfl⟩

theorem causeLottery_no_default (cfg : BallsConfig) (prob : Probability)
    (d : Draws) (g : Game) (t : Transition) :
    OutputEvent.default t ∉ (Game.causeLottery cfg prob d g).events := by
  unfold Game.causeLottery
  dsimp only
  repeat' split
  all_goals simp

theorem launchBall_no_events (g : Game) : (Game.launchBall g).events = [] := by
  unfold Game.launchBall
  repeat' split
  all_goals rfl

theorem execute_no_default (cfg : BallsConfig) (prob : Probability) (d : Draws)
    (c : GameCommand) (g : Game) (t : Transition) :
    OutputEvent.default t ∉ (GameCommand.execute cfg prob d c g).events := by
  cases c with
  | launchBall => rw [GameCommand.execute, launchBall_no_events]; simp
  | causeLottery => exact causeLottery_no_default cfg prob d g t
  | startGame =>
      rw [GameCommand.execute]
      unfold Game.start
      repeat' split
      all_goals simp
  | finishGameImpl =>
      rw [GameCommand.execute]
      unfold Game.finish
      repeat' split
      all_goals simp
  | launchBallFlow isLottery =>
      rw [GameCommand.execute]
      dsimp only
      repeat' split
      all_goals first
        | (dsimp only
           rw [launchBall_no_events, List.nil_append]
           exact causeLottery_no_default cfg prob d _ t)
        | (rw [launchBall_no_events]; simp)

/-- Claim C10: every `Transition` passed to `output.default` by
`runStepWithCommand` has `before = some s₀` where `s₀` is the state copied at
the start of the step (so `before` is never null), and over any command
sequence the game never emits a default notification whose `before` is null. -/
theorem C10_default_before_nonnull :
    (∀ (cfg : BallsConfig) (prob : Probability) (d : Draws) (g : Game)
      (command : Option CommandType) (t : Transition),
      OutputEvent.default t ∈ (Game.runStepWithCommand cfg prob d g command).1.events →
      t.before = some g.state) ∧
    (∀ (cfg : BallsConfig) (prob : Probability) (g : Game)
      (script : List (Option CommandType × Draws)) (t : Transition),
      OutputEvent.default t ∈ (Game.runSteps cfg prob g script).2 →
      t.before ≠ none) := by
  have part1 : ∀ (cfg : BallsConfig) (prob : Probability) (d : Draws) (g : Game)
      (command : Option CommandType) (t : Transition),
      OutputEvent.default t ∈ (Game.runStepWithCommand cfg prob d g command).1.events →
      t.before = some g.state := by
    intro cfg prob d g command t hmem
    unfold Game.runStepWithCommand at hmem
    dsimp only at hmem
    repeat' split at hmem
    all_goals first
      | exact absurd hmem (execute_no_default cfg prob d _ _ t)
      | (dsimp only at hmem
         rw [List.mem_append] at hmem
         rcases hmem with hmem | hmem
         · exact absurd hmem (execute_no_default cfg prob d _ _ t)
         · simp at hmem
           rw [hmem])
      | simp at hmem
  refine ⟨part1, ?_⟩
  intro cfg prob g script
  induction script generalizing g with
  | nil => intro t hmem; simp [Game.runSteps] at hmem
  | cons step rest ih =>
      intro t hmem
      rw [Game.runSteps] at hmem
      dsimp only at hmem
      split at hmem
      · have := part1 cfg prob step.2 g step.1 t hmem
        rw [this]; exact Option.noConfusion
      · split at hmem
        · have := part1 cfg prob step.2 g step.1 t hmem
          rw [this]; exact Option.noConfusion
        · dsimp only at hmem
          rw [List.mem_append] at hmem
          rcases hmem with hmem | hmem
          · have := part1 cfg prob step.2 g step.1 t hmem
            rw [this]; exact Option.noConfusion
          · exact ih _ t hmem

/-- Closed witness for C10: a concrete `StartGame` step emits exactly one
default notification, and its `before` is the pre-step state. -/
theorem C10_default_before_nonnull_witness :
    Transition.before ⟨some .Uninitialized, .Normal 1000⟩ = some GameStateType.Uninitialized :=
  C10_default_before_nonnull.1 ⟨1000, 15, 300⟩ probabilityExample drawsZero
    ⟨none, .Uninitialized, false⟩ (some (.control .startGame))
    ⟨some .Uninitialized, .Normal 1000⟩ (by decide)

theorem validRand_zero : ValidRand 0 := by
  constructor <;> norm_num

theorem randIndex_lt (r : ℚ) (k : ℕ) (hr : ValidRand r) (hk : 0 < k) :
    randIndex r k < k := by
  obtain ⟨hr0, hr1⟩ := hr
  have hkq : (0 : ℚ) < (k : ℚ) := by exact_mod_cast hk
  have hmul : r * (k : ℚ) < (k : ℚ) := by
    calc r * (k : ℚ) < 1 * (k : ℚ) := mul_lt_mul_of_pos_right hr1 hkq
    _ = (k : ℚ) := one_mul _
  have h1 : Int.floor (r * (k : ℚ)) < (k : ℤ) := by
    rw [Int.floor_lt]
    push_cast
    exact hmul
  have h2 : 0 ≤ Int.floor (r * (k : ℚ)) :=
    Int.floor_nonneg.mpr (mul_nonneg hr0 (le_of_lt hkq))
  unfold randIndex
  omega

theorem cons_set_perm {α : Type} (t : List α) (m : ℕ) (a y : α)
    (h : t[m]? = some y) : List.Perm (y :: t.set m a) (a :: t) := by
  induction t generalizing m with
  | nil => simp at h
  | cons b t' ih =>
      cases m with
      | zero =>
          simp only [List.getElem?_cons_zero, Option.some.injEq] at h
          subst h
          exact List.Perm.swap a b t'
      | succ k =>
          simp only [List.getElem?_cons_succ] at h
          have h1 : List.Perm (y :: b :: t'.set k a) (b :: y :: t'.set k a) :=
            List.Perm.swap b y _
          have h2 : List.Perm (b :: y :: t'.set k a) (b :: a :: t') :=
            List.Perm.cons b (ih k h)
          have h3 : List.Perm (b :: a :: t') (a :: b :: t') := List.Perm.swap a b t'
          exact (h1.trans h2).trans h3

theorem set_set_perm {α : Type} (l : List α) (i j : ℕ) (x y : α)
    (hx : l[i]? = some x) (hy : l[j]? = some y) :
    List.Perm ((l.set i y).set j x) l := by
  induction l generalizing i j with
  | nil => simp at hx
  | cons a t ih =>
      cases i with
      | zero =>
          simp only [List.getElem?_cons_zero, Option.some.injEq] at hx
          subst hx
          cases j with
          | zero =>
              simp only [List.getElem?_cons_zero, Option.some.injEq] at hy
              subst hy
              exact List.Perm.refl _
          | succ m =>
              simp only [List.getElem?_cons_succ] at hy
              exact cons_set_perm t m a y hy
      | succ k =>
          simp only [List.getElem?_cons_succ] at hx
          cases j with
          | zero =>
              simp only [List.getElem?_cons_zero, Option.some.injEq] at hy
              subst hy
              exact cons_set_perm t k a x hx
          | succ m =>
              simp only [List.getElem?_cons_succ] at hy
              exact List.Perm.cons a (ih k m hx hy)

theorem listSwap_perm {α : Type} (l : List α) (i j : ℕ) :
    List.Perm (listSwap l i j) l := by
  unfold listSwap
  split
  next x y hx hy => exact set_set_perm l i j x y hx hy
  next => exact List.Perm.refl l

theorem shuffleGo_perm {α : Type} (rs : ℕ → ℚ) (i : ℕ) :
    ∀ l : List α, List.Perm (shuffleGo rs l i) l := by
  induction i with
  | zero => intro l; exact List.Perm.refl l
  | succ k ih =>
      intro l
      rw [shuffleGo]
      exact (ih _).trans (listSwap_perm l (k + 1) (randIndex (rs (k + 1)) (k + 2)))

theorem shuffleArray_perm {α : Type} (rs : ℕ → ℚ) (l : List α) :
    List.Perm (shuffleArray rs l) l :=
  shuffleGo_perm rs (l.length - 1) l

theorem shifted_ne_self (c dlt L : Int) (hc0 : 0 ≤ c) (hcL : c < L)
    (hL : 2 ≤ L) (hd : dlt = 1 ∨ dlt = -1) : (c + dlt + L) % L ≠ c := by
  intro heq
  have hc : c % L = c := Int.emod_eq_of_lt hc0 hcL
  have hmods : (c + dlt + L) % L = c % L := by rw [heq, hc]
  have hzero : (c + dlt + L - c) % L = 0 :=
    Int.emod_eq_emod_iff_emod_sub_eq_zero.mp hmods
  have hsimp : c + dlt + L - c = dlt + L := by ring
  rw [hsimp] at hzero
  have hdvd : L ∣ dlt + L := Int.dvd_of_emod_eq_zero hzero
  have hdvd' : L ∣ dlt := (dvd_add_right (dvd_refl L)).mp (by rwa [add_comm] at hdvd)
  rcases hd with h1 | h1
  · rw [h1] at hdvd'
    have := Int.le_of_dvd one_pos hdvd'
    omega
  · rw [h1] at hdvd'
    rw [dvd_neg] at hdvd'
    have := Int.le_of_dvd one_pos hdvd'
    omega

/-- Claim C8: for every catalog of at least two pairwise-distinct symbols,
`produceFakeLose` returns exactly 3 elements where element 0 equals element 2
and differs from element 1.  The source function never reads the configured
reel length, so this holds regardless of it. -/
theorem C8_produceFakeLose_shape (choices : List SlotSymbol)
    (hnd : choices.Nodup) (hlen : 2 ≤ choices.length) (r1 r2 : ℚ)
    (h1 : ValidRand r1) :
    ∃ a b, SlotProducer.produceFakeLose choices r1 r2 = [a, b, a] ∧ a ≠ b := by
  have hlpos : 0 < choices.length := by omega
  have hci : randIndex r1 choices.length < choices.length :=
    randIndex_lt r1 choices.length h1 hlpos
  have hL2 : (2 : Int) ≤ (choices.length : Int) := by exact_mod_cast hlen
  have hLpos : (0 : Int) < (choices.length : Int) := by omega
  have hsh0 : 0 ≤ ((randIndex r1 choices.length : Int) +
      (if r2 < 1/2 then -1 else 1) + (choices.length : Int)) % (choices.length : Int) :=
    Int.emod_nonneg _ (by omega)
  have hshlt : ((randIndex r1 choices.length : Int) +
      (if r2 < 1/2 then -1 else 1) + (choices.length : Int)) % (choices.length : Int) <
      (choices.length : Int) := Int.emod_lt_of_pos _ hLpos
  have hd : (if r2 < (1 : ℚ)/2 then (-1 : Int) else 1) = 1 ∨
      (if r2 < (1 : ℚ)/2 then (-1 : Int) else 1) = -1 := by
    split
    · right; rfl
    · left; rfl
  have hne : ((randIndex r1 choices.length : Int) +
      (if r2 < 1/2 then -1 else 1) + (choices.length : Int)) % (choices.length : Int) ≠
      (randIndex r1 choices.length : Int) :=
    shifted_ne_self (randIndex r1 choices.length : Int) _ (choices.length : Int)
      (by omega) (by exact_mod_cast hci) hL2 hd
  have hshNat : (((randIndex r1 choices.length : Int) +
      (if r2 < 1/2 then -1 else 1) + (choices.length : Int)) %
      (choices.length : Int)).toNat < choices.length := by omega
  have hneNat : (((randIndex r1 choices.length : Int) +
      (if r2 < 1/2 then -1 else 1) + (choices.length : Int)) %
      (choices.length : Int)).toNat ≠ randIndex r1 choices.length := by omega
  refine ⟨choices.getD (randIndex r1 choices.length) 0,
    choices.getD (((randIndex r1 choices.length : Int) +
      (if r2 < 1/2 then -1 else 1) + (choices.length : Int)) %
      (choices.length : Int)).toNat 0, rfl, ?_⟩
  rw [List.getD_eq_getElem _ _ (by omega : randIndex r1 choices.length < choices.length), List.getD_eq_getElem _ _ hshNat]
  intro heq
  exact hneNat ((hnd.getElem_inj_iff).mp heq.symm)

/-- Closed witness for C8 on the catalog `[1, 2]` with zero draws. -/
theorem C8_produceFakeLose_shape_witness :
    ∃ a b, SlotProducer.produceFakeLose [1, 2] 0 0 = [a, b, a] ∧ a ≠ b :=
  C8_produceFakeLose_shape [1, 2] (by decide) (by decide) 0 0 validRand_zero

theorem produceLose_aux (L : ℕ) (R : List SlotSymbol) (hRnd : R.Nodup)
    (hRlen : 2 ≤ R.length) (hL : 2 ≤ L) (p k1 : ℕ)
    (hp1 : 1 ≤ p) (hpU : p ≤ R.length - 1)
    (hk1l : 1 ≤ k1) (hk1u : k1 ≤ L - 1)
    (rs1 rs2 : ℕ → ℚ) (hrs1 : ∀ i, ValidRand (rs1 i))
    (hrs2 : ∀ i, ValidRand (rs2 i)) (finR : ℕ → ℚ) :
    (shuffleArray finR
      (((List.range k1).map
          (fun i => (R.take p).getD (randIndex (rs1 i) (R.take p).length) 0)) ++
       ((List.range (L - k1)).map
          (fun i => (R.drop p).getD (randIndex (rs2 i) (R.drop p).length) 0)))).length = L ∧
    ∃ x ∈ shuffleArray finR
      (((List.range k1).map
          (fun i => (R.take p).getD (randIndex (rs1 i) (R.take p).length) 0)) ++
       ((List.range (L - k1)).map
          (fun i => (R.drop p).getD (randIndex (rs2 i) (R.drop p).length) 0))),
      ∃ y ∈ shuffleArray finR
      (((List.range k1).map
          (fun i => (R.take p).getD (randIndex (rs1 i) (R.take p).length) 0)) ++
       ((List.range (L - k1)).map
          (fun i => (R.drop p).getD (randIndex (rs2 i) (R.drop p).length) 0))),
        x ≠ y := by
  have hc1len : (R.take p).length = p := by
    rw [List.length_take]; omega
  have hc2len : (R.drop p).length = R.length - p := List.length_drop p R
  have hdisj : List.Disjoint (R.take p) (R.drop p) :=
    List.disjoint_take_drop hRnd (le_refl p)
  have hx0lt : randIndex (rs1 0) (R.take p).length < (R.take p).length :=
    randIndex_lt _ _ (hrs1 0) (by omega)
  have hy0lt : randIndex (rs2 0) (R.drop p).length < (R.drop p).length :=
    randIndex_lt _ _ (hrs2 0) (by omega)
  have hx0c1 : (R.take p).getD (randIndex (rs1 0) (R.take p).length) 0 ∈ R.take p := by
    rw [List.getD_eq_getElem _ _ hx0lt]
    exact List.getElem_mem hx0lt
  have hy0c2 : (R.drop p).getD (randIndex (rs2 0) (R.drop p).length) 0 ∈ R.drop p := by
    rw [List.getD_eq_getElem _ _ hy0lt]
    exact List.getElem_mem hy0lt
  have hx0res : (R.take p).getD (randIndex (rs1 0) (R.take p).length) 0 ∈
      (List.range k1).map
        (fun i => (R.take p).getD (randIndex (rs1 i) (R.take p).length) 0) :=
    List.mem_map.mpr ⟨0, List.mem_range.mpr (by omega), rfl⟩
  have hy0res : (R.drop p).getD (randIndex (rs2 0) (R.drop p).length) 0 ∈
      (List.range (L - k1)).map
        (fun i => (R.drop p).getD (randIndex (rs2 i) (R.drop p).length) 0) :=
    List.mem_map.mpr ⟨0, List.mem_range.mpr (by omega), rfl⟩
  have hfperm := shuffleArray_perm finR
    (((List.range k1).map
        (fun i => (R.take p).getD (randIndex (rs1 i) (R.take p).length) 0)) ++
     ((List.range (L - k1)).map
        (fun i => (R.drop p).getD (randIndex (rs2 i) (R.drop p).length) 0)))
  refine ⟨?_, (R.take p).getD (randIndex (rs1 0) (R.take p).length) 0,
    hfperm.mem_iff.mpr (List.mem_append_left _ hx0res),
    (R.drop p).getD (randIndex (rs2 0) (R.drop p).length) 0,
    hfperm.mem_iff.mpr (List.mem_append_right _ hy0res), ?_⟩
  · rw [hfperm.length_eq, List.length_append, List.length_map, List.length_map,
      List.length_range, List.length_range]
    omega
  · intro heq
    exact hdisj hx0c1 (heq ▸ hy0c2)

/-- Claim C7: for every catalog of at least two pairwise-distinct symbols and
every reel length `L ≥ 2`, and for every outcome of the random draws (each a
genuine `Math.random()` value), `produceLose` returns a sequence of exactly `L`
symbols that are not all identical: it contains two distinct elements. -/
theorem C7_produceLose_not_uniform (L : ℕ) (choices : List SlotSymbol)
    (hL : 2 ≤ L) (hnd : choices.Nodup) (hlen : 2 ≤ choices.length)
    (shufR finR rs1 rs2 : ℕ → ℚ) (rPart rCnt : ℚ)
    (hPart : ValidRand rPart) (hCnt : ValidRand rCnt)
    (hrs1 : ∀ i, ValidRand (rs1 i)) (hrs2 : ∀ i, ValidRand (rs2 i)) :
    (SlotProducer.produceLose L choices shufR rPart rCnt rs1 rs2 finR).length = L ∧
    ∃ x ∈ SlotProducer.produceLose L choices shufR rPart rCnt rs1 rs2 finR,
      ∃ y ∈ SlotProducer.produceLose L choices shufR rPart rCnt rs1 rs2 finR,
        x ≠ y := by
  have hRperm := shuffleArray_perm shufR choices
  have hRnd : (shuffleArray shufR choices).Nodup := (hRperm.nodup_iff).mpr hnd
  have hRlen : 2 ≤ (shuffleArray shufR choices).length := by
    rw [hRperm.length_eq]; exact hlen
  have hp := randIndex_lt rPart ((shuffleArray shufR choices).length - 1) hPart (by omega)
  have hk := randIndex_lt rCnt (L - 1) hCnt (by omega)
  exact produceLose_aux L (shuffleArray shufR choices) hRnd hRlen hL
    (randIndex rPart ((shuffleArray shufR choices).length - 1) + 1)
    (randIndex rCnt (L - 1) + 1) (by omega) (by omega) (by omega) (by omega)
    rs1 rs2 hrs1 hrs2 finR

/-- Closed witness for C7: reel length 3 over the catalog `[1, 2]` with all
draws equal to 0. -/
theorem C7_produceLose_not_uniform_witness :
    (SlotProducer.produceLose 3 [1, 2] (fun _ => 0) 0 0 (fun _ => 0) (fun _ => 0)
      (fun _ => 0)).length = 3 ∧
    ∃ x ∈ SlotProducer.produceLose 3 [1, 2] (fun _ => 0) 0 0 (fun _ => 0) (fun _ => 0)
      (fun _ => 0),
      ∃ y ∈ SlotProducer.produceLose 3 [1, 2] (fun _ => 0) 0 0 (fun _ => 0) (fun _ => 0)
        (fun _ => 0), x ≠ y :=
  C7_produceLose_not_uniform 3 [1, 2] (by decide) (by decide) (by decide)
    (fun _ => 0) (fun _ => 0) (fun _ => 0) (fun _ => 0) 0 0
    validRand_zero validRand_zero (fun _ => validRand_zero) (fun _ => validRand_zero)
